import Mathlib

/-!
Verification of the `AnimatedFAB` component
(src/src/components/FAB/AnimatedFAB.tsx).

The component renders a floating action button that morphs between a
circular icon-only state and an extended pill with a label.  All sizes and
animation scalars are modelled over the rationals.  Interpolations driven by
the animated progress value are modelled with the host animation library's
piecewise-linear interpolation algorithm (segment search followed by a linear
map with extend-style extrapolation and identity easing), since the component
hands its input/output ranges to that capability.
-/

namespace AnimatedFAB

/-- Fixed FAB diameter, `const SIZE = 56` (line 91). -/
def SIZE : ℚ := 56

/-- `const BORDER_RADIUS = SIZE / 2` (line 92). -/
def BORDER_RADIUS : ℚ := SIZE / 2

/-- `const SCALE = 0.9` (line 93). -/
def SCALE : ℚ := 9 / 10

/-- The `animateFrom` prop: `'right' | 'left'`, default `'right'` (line 78, 109). -/
inductive AnimateFrom where
  | right
  | left
deriving DecidableEq, Repr

/-- `const isAnimatedFromRight = animateFrom === 'right'` (line 115). -/
def isAnimatedFromRight : AnimateFrom → Bool
  | .right => true
  | .left => false

/-- `const extendedWidth = textWidth + 1.5 * SIZE` (line 171). -/
def extendedWidth (textWidth : ℚ) : ℚ :=
  textWidth + (3 / 2) * SIZE

/-- `const distance = isAnimatedFromRight ? -textWidth - BORDER_RADIUS
    : textWidth + BORDER_RADIUS` (lines 173-175). -/
def distance (animateFrom : AnimateFrom) (textWidth : ℚ) : ℚ :=
  if isAnimatedFromRight animateFrom then -textWidth - BORDER_RADIUS
  else textWidth + BORDER_RADIUS

/-- Target handed to the timing animation for the progress value:
    `toValue: !extended ? 0 : distance` (line 179). -/
def animTarget (extended : Bool) (d : ℚ) : ℚ :=
  if !extended then 0 else d

/-- Direction-dependent side offsets, `getSidesPosition` (lines 198-210). -/
structure SidesPosition where
  left : Option ℚ
  right : Option ℚ
deriving DecidableEq, Repr

/-- `getSidesPosition` (lines 198-210): the side receiving the offset depends
    on the animation direction. -/
def getSidesPosition (animateFrom : AnimateFrom) (d : ℚ) : SidesPosition :=
  if isAnimatedFromRight animateFrom then
    { left := some (-d), right := none }
  else
    { left := none, right := some d }

/-! ### Host interpolation capability

The component passes input/output ranges to the host animation library's
`interpolate`.  The host maps a value through a piecewise-linear function:
it scans the input range for the first interior knot that is `>=` the input
(falling back to the last segment), then linearly maps the chosen segment,
extrapolating beyond the ends (default extrapolation mode) with identity
easing.  Degenerate segments are handled first: equal output endpoints give
that constant; an equal-endpoint input segment selects an output endpoint by
comparison. -/

/-- Segment search of the host interpolation: starting at index 1, return
    `i - 1` for the first `i` below `length - 1` whose knot is `>=` the
    input, else `length - 2` (JS loop fallthrough). -/
def findRangeLoop (input : ℚ) (inputRange : List ℚ) (i : ℕ) : ℕ :=
  if _h : i < inputRange.length - 1 then
    if input ≤ inputRange.getD i 0 then i - 1
    else findRangeLoop input inputRange (i + 1)
  else i - 1
termination_by inputRange.length - 1 - i

/-- The host's segment search starts at index 1. -/
def findRange (input : ℚ) (inputRange : List ℚ) : ℕ :=
  findRangeLoop input inputRange 1

/-- Linear map of one segment with extend-extrapolation and identity easing. -/
def interpolateSegment (input inMin inMax outMin outMax : ℚ) : ℚ :=
  if outMin = outMax then outMin
  else if inMin = inMax then (if input ≤ inMin then outMin else outMax)
  else outMin + (input - inMin) / (inMax - inMin) * (outMax - outMin)

/-- The host interpolation: find the segment, then map it linearly. -/
def interpolate (input : ℚ) (inputRange outputRange : List ℚ) : ℚ :=
  let r := findRange input inputRange
  interpolateSegment input (inputRange.getD r 0) (inputRange.getD (r + 1) 0)
    (outputRange.getD r 0) (outputRange.getD (r + 1) 0)

/-! ### Style interpolations of the component -/

/-- Expanded-silhouette shadow opacity (lines 257-260):
    `inputRange: [distance, 0.9 * distance, 0], outputRange: [1, 0.15, 0]`. -/
def expandedShadowOpacity (d input : ℚ) : ℚ :=
  interpolate input [d, (9 / 10) * d, 0] [1, 15 / 100, 0]

/-- Collapsed-silhouette shadow opacity (lines 270-273):
    `inputRange: [distance, 0.9 * distance, 0], outputRange: [0, 0.85, 1]`. -/
def collapsedShadowOpacity (d input : ℚ) : ℚ :=
  interpolate input [d, (9 / 10) * d, 0] [0, 85 / 100, 1]

/-- Collapsed-silhouette border radius (lines 275-278):
    `inputRange: [distance, 0], outputRange: [SIZE / (extendedWidth / SIZE), BORDER_RADIUS]`. -/
def collapsedShadowBorderRadius (d textWidth input : ℚ) : ℚ :=
  interpolate input [d, 0] [SIZE / (extendedWidth textWidth / SIZE), BORDER_RADIUS]

/-- Collapsed-silhouette horizontal scale (lines 287-290):
    `inputRange: [distance, 0], outputRange: [extendedWidth / SIZE, 1]`. -/
def collapsedShadowScaleX (d textWidth input : ℚ) : ℚ :=
  interpolate input [d, 0] [extendedWidth textWidth / SIZE, 1]

/-- Label opacity (lines 366-371): the input range is oriented by direction so
    the fully-extended knot maps to 1 and both the 70% knot and the collapsed
    knot map to 0. -/
def labelOpacity (animateFrom : AnimateFrom) (d input : ℚ) : ℚ :=
  if isAnimatedFromRight animateFrom then
    interpolate input [d, (7 / 10) * d, 0] [1, 0, 0]
  else
    interpolate input [0, (7 / 10) * d, d] [0, 0, 1]

/-- Pill vertical scale (lines 237-242): `{0.9, 1}` oriented by direction. -/
def pillScaleY (animateFrom : AnimateFrom) (d input : ℚ) : ℚ :=
  if isAnimatedFromRight animateFrom then
    interpolate input [d, 0] [SCALE, 1]
  else
    interpolate input [0, d] [1, SCALE]

/-! ### Colors -/

/-- A color: byte channels plus a rational alpha, the observable content of
    the `color(...).alpha(...).rgb().string()` pipeline. -/
structure Color where
  r : ℕ
  g : ℕ
  b : ℕ
  a : ℚ
deriving DecidableEq, Repr

/-- `white` from styles/colors. -/
def white : Color := ⟨255, 255, 255, 1⟩

/-- `black` from styles/colors. -/
def black : Color := ⟨0, 0, 0, 1⟩

/-- The near-black fallback literal `rgba(0, 0, 0, .54)` (line 165). -/
def darkFallback : Color := ⟨0, 0, 0, 54 / 100⟩

/-- `color(c).alpha(a).rgb().string()`: same channels, alpha replaced. -/
def withAlpha (c : Color) (a : ℚ) : Color :=
  { c with a := a }

/-- Perceived luma of a color (ITU-R 601 weights), used to compare contrast. -/
def luma (c : Color) : ℚ :=
  (299 * c.r + 587 * c.g + 114 * c.b) / 1000

/-- Contrast of an ink color against a background: luma separation. -/
def contrast (ink bg : Color) : ℚ :=
  |luma ink - luma bg|

/-- Modelled from the spec: the `getContrastingColor` utility
    (src/utils/getContrastingColor, not included under src/) returns
    whichever of the two ink colors yields higher contrast against the
    background color, preferring `light` on ties. -/
def getContrastingColor (bg light dark : Color) : Color :=
  if contrast dark bg ≤ contrast light bg then light else dark

/-- `disabledColor` (lines 144-147): theme-aware ink at 12% opacity. -/
def disabledColor (isDark : Bool) : Color :=
  withAlpha (if isDark then white else black) (12 / 100)

/-- Background resolution (lines 149-150): the flattened style's background
    if present, else the disabled color when disabled, else the theme accent. -/
def backgroundColor (styleBackground : Option Color) (disabled : Bool)
    (isDark : Bool) (accent : Color) : Color :=
  styleBackground.getD (if disabled then disabledColor isDark else accent)

/-- `foregroundColor` (lines 152-167): override color, else disabled ink at
    32% opacity, else the higher-contrast ink against the background. -/
def foregroundColor (customColor : Option Color) (disabled : Bool)
    (isDark : Bool) (bg : Color) : Color :=
  match customColor with
  | some c => c
  | none =>
    if disabled then withAlpha (if isDark then white else black) (32 / 100)
    else getContrastingColor bg white darkFallback

/-- `rippleColor` (line 169): the foreground at 32% opacity. -/
def rippleColor (fg : Color) : Color :=
  withAlpha fg (32 / 100)

/-! ### Text measurement -/

/-- One entry of `nativeEvent.lines`. -/
structure TextLine where
  width : ℚ
  height : ℚ
deriving DecidableEq, Repr

/-- The text-layout event payload: its `lines` array. -/
structure TextLayoutEvent where
  lines : List TextLine
deriving DecidableEq, Repr

/-- The stored measurement state `{ textWidth, textHeight }`
    (lines 125-126), both initialised to 0. -/
structure Measurement where
  textWidth : ℤ
  textHeight : ℤ
deriving DecidableEq, Repr

/-- Initial measurement state: `useState(0)` twice (lines 125-126). -/
def initialMeasurement : Measurement := ⟨0, 0⟩

/-- `onTextLayout` (lines 186-196).  The handler reads
    `nativeEvent.lines[0].width` / `.height` without a guard; with an empty
    `lines` array that member access fails in the host language, embedded
    here as `none`.  Otherwise it ceiling-rounds the first line's size and
    stores it only when it differs from the stored state; the boolean records
    whether the set-state calls ran. -/
def onTextLayout (ev : TextLayoutEvent) (st : Measurement) :
    Option (Measurement × Bool) :=
  match ev.lines with
  | [] => none
  | line :: _ =>
    let currentWidth : ℤ := ⌈line.width⌉
    let currentHeight : ℤ := ⌈line.height⌉
    if currentWidth ≠ st.textWidth ∨ currentHeight ≠ st.textHeight then
      some (⟨currentWidth, currentHeight⟩, true)
    else
      some (st, false)

/-! ### Interpolation evaluation lemmas -/

/-- Segment search on a two-knot range always selects the only segment. -/
theorem findRange_pair (x a b : ℚ) : findRange x [a, b] = 0 := by
  unfold findRange findRangeLoop
  norm_num

/-- Segment search on a three-knot range: an input not above the middle knot
    selects the first segment. -/
theorem findRange_triple_le (x a b c : ℚ) (h : x ≤ b) :
    findRange x [a, b, c] = 0 := by
  unfold findRange findRangeLoop
  simp [h]

/-- Segment search on a three-knot range: an input above the middle knot
    selects the second segment. -/
theorem findRange_triple_gt (x a b c : ℚ) (h : ¬ x ≤ b) :
    findRange x [a, b, c] = 1 := by
  unfold findRange findRangeLoop
  simp [h]
  unfold findRangeLoop
  norm_num

theorem interpolate_pair (x a b oa ob : ℚ) :
    interpolate x [a, b] [oa, ob] = interpolateSegment x a b oa ob := by
  unfold interpolate
  rw [findRange_pair]
  rfl

theorem interpolate_triple_le (x a b c oa ob oc : ℚ) (h : x ≤ b) :
    interpolate x [a, b, c] [oa, ob, oc] = interpolateSegment x a b oa ob := by
  unfold interpolate
  rw [findRange_triple_le x a b c h]
  rfl

theorem interpolate_triple_gt (x a b c oa ob oc : ℚ) (h : ¬ x ≤ b) :
    interpolate x [a, b, c] [oa, ob, oc] = interpolateSegment x b c ob oc := by
  unfold interpolate
  rw [findRange_triple_gt x a b c h]
  rfl

/-- A non-degenerate segment maps its start knot to the start output. -/
theorem interpolateSegment_start (a b oa ob : ℚ) (h : a ≠ b) :
    interpolateSegment a a b oa ob = oa := by
  unfold interpolateSegment
  rcases eq_or_ne oa ob with h1 | h1
  · simp [h1]
  · simp [h1, h]

/-- A non-degenerate segment maps its end knot to the end output. -/
theorem interpolateSegment_end (a b oa ob : ℚ) (h : a ≠ b) :
    interpolateSegment b a b oa ob = ob := by
  unfold interpolateSegment
  rcases eq_or_ne oa ob with h1 | h1
  · simp [h1]
  · have hba : b - a ≠ 0 := sub_ne_zero.mpr (Ne.symm h)
    rw [if_neg h1, if_neg h, div_self hba]
    ring

/-- Unfolded form of `distance` for the default RIGHT direction. -/
theorem distance_right_eq (w : ℚ) :
    distance AnimateFrom.right w = -w - BORDER_RADIUS := by
  simp [distance, isAnimatedFromRight]

/-- Unfolded form of `distance` for the LEFT direction. -/
theorem distance_left_eq (w : ℚ) :
    distance AnimateFrom.left w = w + BORDER_RADIUS := by
  simp [distance, isAnimatedFromRight]

/-! ### Claims -/

/-- C1: for every measured label width the derived distance has magnitude
    width plus the fixed corner radius (28, half the 56-unit diameter), and
    is signed by direction: `-(W + 28)` for the default RIGHT direction and
    `W + 28` for LEFT. -/
theorem distance_signed_by_direction (w : ℚ) (hw : 0 ≤ w) :
    distance AnimateFrom.right w = -(w + 28)
    ∧ distance AnimateFrom.left w = w + 28
    ∧ |distance AnimateFrom.right w| = w + BORDER_RADIUS
    ∧ |distance AnimateFrom.left w| = w + BORDER_RADIUS
    ∧ BORDER_RADIUS = 28 ∧ SIZE = 56 := by
  have hbr : BORDER_RADIUS = 28 := by norm_num [BORDER_RADIUS, SIZE]
  have hr : distance AnimateFrom.right w = -(w + 28) := by
    simp [distance, isAnimatedFromRight, hbr]; ring
  have hl : distance AnimateFrom.left w = w + 28 := by
    simp [distance, isAnimatedFromRight, hbr]
  refine ⟨hr, hl, ?_, ?_, hbr, by norm_num [SIZE]⟩
  · rw [hr, abs_of_nonpos (by linarith), hbr]; ring
  · rw [hl, abs_of_nonneg (by linarith), hbr]

/-- Witness for C1 at width 10. -/
theorem distance_signed_by_direction_witness :
    distance AnimateFrom.right 10 = -(10 + 28)
    ∧ distance AnimateFrom.left 10 = 10 + 28
    ∧ |distance AnimateFrom.right 10| = 10 + BORDER_RADIUS
    ∧ |distance AnimateFrom.left 10| = 10 + BORDER_RADIUS
    ∧ BORDER_RADIUS = 28 ∧ SIZE = 56 :=
  distance_signed_by_direction 10 (by norm_num)

/-- C3 counterexample: with the default RIGHT direction held fixed and
    widths 0 < 1, the recomputed distance does not increase — it moves from
    -28 to -29. -/
theorem distance_not_increasing_right :
    (0 : ℚ) < 1
    ∧ distance AnimateFrom.right 0 = -28
    ∧ distance AnimateFrom.right 1 = -29
    ∧ ¬ distance AnimateFrom.right 0 < distance AnimateFrom.right 1 := by
  refine ⟨by norm_num, ?_, ?_, ?_⟩ <;>
    norm_num [distance, isAnimatedFromRight, BORDER_RADIUS, SIZE]

/-- C3 amended: with direction held fixed, the magnitude of the distance
    strictly increases with the measured width; equivalently the distance
    strictly increases for LEFT and strictly decreases for RIGHT. -/
theorem distance_magnitude_strict_mono (dir : AnimateFrom) (w1 w2 : ℚ)
    (h0 : 0 ≤ w1) (h12 : w1 < w2) :
    |distance dir w1| < |distance dir w2|
    ∧ distance AnimateFrom.left w1 < distance AnimateFrom.left w2
    ∧ distance AnimateFrom.right w2 < distance AnimateFrom.right w1 := by
  have hbr : BORDER_RADIUS = 28 := by norm_num [BORDER_RADIUS, SIZE]
  refine ⟨?_, ?_, ?_⟩
  · cases dir
    · simp only [distance_right_eq, hbr]
      rw [abs_of_nonpos (by linarith), abs_of_nonpos (by linarith)]
      linarith
    · simp only [distance_left_eq, hbr]
      rw [abs_of_nonneg (by linarith), abs_of_nonneg (by linarith)]
      linarith
  · simp only [distance_left_eq, hbr]
    linarith
  · simp only [distance_right_eq, hbr]
    linarith

/-- Witness for the amended C3 at widths 3 < 8, RIGHT direction. -/
theorem distance_magnitude_strict_mono_witness :
    |distance AnimateFrom.right 3| < |distance AnimateFrom.right 8|
    ∧ distance AnimateFrom.left 3 < distance AnimateFrom.left 8
    ∧ distance AnimateFrom.right 8 < distance AnimateFrom.right 3 :=
  distance_magnitude_strict_mono AnimateFrom.right 3 8 (by norm_num)
    (by norm_num)

/-- C6: disabled with neither a style background nor an override color gives
    background = theme ink at 12% opacity and foreground = theme ink at 32%
    opacity, for any theme and accent; only the ink hue follows the theme. -/
theorem disabled_default_colors (isDark : Bool) (accent : Color) :
    backgroundColor none true isDark accent
      = withAlpha (if isDark then white else black) (12 / 100)
    ∧ foregroundColor none true isDark (backgroundColor none true isDark accent)
      = withAlpha (if isDark then white else black) (32 / 100) := by
  cases isDark <;> exact ⟨rfl, rfl⟩

/-- C7: for a fixed measured width the LEFT and RIGHT distances are exact
    negations of one another — identical magnitude, opposite sign. -/
theorem distance_direction_symmetry (w : ℚ) (hw : 0 ≤ w) :
    distance AnimateFrom.left w = -distance AnimateFrom.right w
    ∧ |distance AnimateFrom.left w| = |distance AnimateFrom.right w|
    ∧ distance AnimateFrom.right w < 0
    ∧ 0 < distance AnimateFrom.left w := by
  have hbr : BORDER_RADIUS = 28 := by norm_num [BORDER_RADIUS, SIZE]
  have hneg : distance AnimateFrom.left w = -distance AnimateFrom.right w := by
    simp [distance, isAnimatedFromRight]; ring
  refine ⟨hneg, by rw [hneg, abs_neg], ?_, ?_⟩
  · simp only [distance_right_eq, hbr]
    linarith
  · simp only [distance_left_eq, hbr]
    linarith

/-- Witness for C7 at width 7. -/
theorem distance_direction_symmetry_witness :
    distance AnimateFrom.left 7 = -distance AnimateFrom.right 7
    ∧ |distance AnimateFrom.left 7| = |distance AnimateFrom.right 7|
    ∧ distance AnimateFrom.right 7 < 0
    ∧ 0 < distance AnimateFrom.left 7 :=
  distance_direction_symmetry 7 (by norm_num)

/-- C8: on the layout event of an empty label (an empty `lines` array) the
    handler dereferences the missing first line and fails — embedded as
    `none` — instead of safely leaving the stored width at 0. -/
theorem onTextLayout_empty_lines_fails :
    onTextLayout ⟨[]⟩ initialMeasurement = none := rfl

/-- C9: on any layout event carrying at least one line, the stored
    measurement is replaced exactly when the ceiling-rounded width or height
    differs from the stored one, and is left untouched (no set-state) when
    both agree. -/
theorem onTextLayout_updates_iff_changed (l : TextLine) (rest : List TextLine)
    (st : Measurement) :
    (⌈l.width⌉ = st.textWidth ∧ ⌈l.height⌉ = st.textHeight →
      onTextLayout ⟨l :: rest⟩ st = some (st, false))
    ∧ (⌈l.width⌉ ≠ st.textWidth ∨ ⌈l.height⌉ ≠ st.textHeight →
      onTextLayout ⟨l :: rest⟩ st = some (⟨⌈l.width⌉, ⌈l.height⌉⟩, true))
    ∧ (∀ st2 upd, onTextLayout ⟨l :: rest⟩ st = some (st2, upd) →
      (upd = true ↔ (⌈l.width⌉ ≠ st.textWidth ∨ ⌈l.height⌉ ≠ st.textHeight))) := by
  refine ⟨fun h => ?_, fun h => ?_, fun st2 upd h => ?_⟩
  · simp [onTextLayout, h.1, h.2]
  · simp only [onTextLayout, if_pos h]
  · by_cases hc : ⌈l.width⌉ ≠ st.textWidth ∨ ⌈l.height⌉ ≠ st.textHeight
    · simp only [onTextLayout, if_pos hc, Option.some_inj, Prod.mk.injEq] at h
      simp [h.2, hc]
    · simp only [onTextLayout, if_neg hc, Option.some_inj, Prod.mk.injEq] at h
      simp [h.2, hc]

/-- Witness for C9: width 7/2 rounds to 4; against stored (4, 10) nothing
    updates, against stored (3, 10) the state becomes (4, 10). -/
theorem onTextLayout_updates_iff_changed_witness :
    onTextLayout ⟨[⟨7 / 2, 10⟩]⟩ ⟨4, 10⟩ = some (⟨4, 10⟩, false)
    ∧ onTextLayout ⟨[⟨7 / 2, 10⟩]⟩ ⟨3, 10⟩ = some (⟨4, 10⟩, true) := by
  have hw : ⌈(7 / 2 : ℚ)⌉ = (4 : ℤ) := by
    rw [Int.ceil_eq_iff]
    norm_num
  have hh : ⌈(10 : ℚ)⌉ = (10 : ℤ) := by simp
  constructor
  · exact (onTextLayout_updates_iff_changed ⟨7 / 2, 10⟩ [] ⟨4, 10⟩).1 ⟨hw, hh⟩
  · have h := (onTextLayout_updates_iff_changed ⟨7 / 2, 10⟩ [] ⟨3, 10⟩).2.1
      (Or.inl (by simp [hw]))
    simpa [hw, hh] using h

/-- C10: before any measurement (stored width 0) the geometry is already
    nonzero: extendedWidth = 84, the distance has magnitude 28 for either
    direction, and the extended-intent animation target is that nonzero
    distance. -/
theorem zero_width_geometry (dir : AnimateFrom) :
    initialMeasurement.textWidth = 0
    ∧ extendedWidth 0 = 84
    ∧ |distance dir 0| = 28
    ∧ animTarget true (distance dir 0) = distance dir 0
    ∧ animTarget true (distance dir 0) ≠ 0 := by
  cases dir <;>
    refine ⟨rfl, by norm_num [extendedWidth, SIZE], ?_, rfl, ?_⟩ <;>
    norm_num [distance, isAnimatedFromRight, animTarget, BORDER_RADIUS, SIZE]

/-- C2: endpoint consistency.  At progress 0 the collapsed silhouette is a
    56-wide circle of corner radius 28; the pill layer's width is
    `measuredWidth + 1.5 * 56`, which is its width at progress = distance;
    and the label opacity is 1 at progress = distance, for either
    direction. -/
theorem endpoint_consistency (dir : AnimateFrom) (w : ℚ) (hw : 0 ≤ w) :
    extendedWidth w = w + (3 / 2) * 56
    ∧ SIZE * collapsedShadowScaleX (distance dir w) w 0 = 56
    ∧ collapsedShadowBorderRadius (distance dir w) w 0 = 56 / 2
    ∧ labelOpacity dir (distance dir w) (distance dir w) = 1 := by
  have hbr : BORDER_RADIUS = 28 := by norm_num [BORDER_RADIUS, SIZE]
  have hext : extendedWidth w = w + (3 / 2) * 56 := by
    norm_num [extendedWidth, SIZE]
  cases dir
  · have hd : distance AnimateFrom.right w = -w - 28 := by
      rw [distance_right_eq, hbr]
    have hdlt : distance AnimateFrom.right w < 0 := by rw [hd]; linarith
    have h7le : distance AnimateFrom.right w
        ≤ (7 / 10) * distance AnimateFrom.right w := by linarith
    have h7ne : distance AnimateFrom.right w
        ≠ (7 / 10) * distance AnimateFrom.right w := by
      intro hc
      linarith
    refine ⟨hext, ?_, ?_, ?_⟩
    · unfold collapsedShadowScaleX
      rw [interpolate_pair, interpolateSegment_end _ _ _ _ (ne_of_lt hdlt)]
      norm_num [SIZE]
    · unfold collapsedShadowBorderRadius
      rw [interpolate_pair, interpolateSegment_end _ _ _ _ (ne_of_lt hdlt)]
      norm_num [BORDER_RADIUS, SIZE]
    · simp [labelOpacity, isAnimatedFromRight]
      rw [interpolate_triple_le _ _ _ _ _ _ _ h7le]
      exact interpolateSegment_start _ _ _ _ h7ne
  · have hd : distance AnimateFrom.left w = w + 28 := by
      rw [distance_left_eq, hbr]
    have hdgt : 0 < distance AnimateFrom.left w := by rw [hd]; linarith
    have h7gt : ¬ distance AnimateFrom.left w
        ≤ (7 / 10) * distance AnimateFrom.left w := by
      rw [not_le]
      linarith
    have h7ne : (7 / 10) * distance AnimateFrom.left w
        ≠ distance AnimateFrom.left w := by
      intro hc
      linarith
    refine ⟨hext, ?_, ?_, ?_⟩
    · unfold collapsedShadowScaleX
      rw [interpolate_pair, interpolateSegment_end _ _ _ _ (ne_of_gt hdgt)]
      norm_num [SIZE]
    · unfold collapsedShadowBorderRadius
      rw [interpolate_pair, interpolateSegment_end _ _ _ _ (ne_of_gt hdgt)]
      norm_num [BORDER_RADIUS, SIZE]
    · simp [labelOpacity, isAnimatedFromRight]
      rw [interpolate_triple_gt _ _ _ _ _ _ _ h7gt]
      exact interpolateSegment_end _ _ _ _ h7ne

/-- Witness for C2 with the default RIGHT direction at width 10. -/
theorem endpoint_consistency_witness :
    extendedWidth 10 = 10 + (3 / 2) * 56
    ∧ SIZE * collapsedShadowScaleX (distance AnimateFrom.right 10) 10 0 = 56
    ∧ collapsedShadowBorderRadius (distance AnimateFrom.right 10) 10 0 = 56 / 2
    ∧ labelOpacity AnimateFrom.right (distance AnimateFrom.right 10)
        (distance AnimateFrom.right 10) = 1 :=
  endpoint_consistency AnimateFrom.right 10 (by norm_num)

/-- C4 counterexample: with `animateFrom = 'left'` and width 0 the distance
    is 28, yet the expanded-silhouette shadow opacity at full extension is
    1/6 rather than the claimed 1 — the decreasing input range
    `[distance, 0.9 * distance, 0]` is handed to the host interpolation,
    which selects the second segment and extrapolates. -/
theorem shadow_opacity_left_breaks :
    distance AnimateFrom.left 0 = 28
    ∧ expandedShadowOpacity (distance AnimateFrom.left 0)
        (distance AnimateFrom.left 0) = 1 / 6
    ∧ (1 / 6 : ℚ) ≠ 1 := by
  have hd : distance AnimateFrom.left 0 = 28 := by
    rw [distance_left_eq]
    norm_num [BORDER_RADIUS, SIZE]
  refine ⟨hd, ?_, by norm_num⟩
  rw [hd]
  unfold expandedShadowOpacity
  rw [interpolate_triple_gt _ _ _ _ _ _ _ (by norm_num)]
  unfold interpolateSegment
  norm_num

/-- C4 amended: for the default RIGHT direction (where the input range handed
    to the host interpolation is increasing) and any measured width, the
    expanded-silhouette shadow opacity is 1 at full extension, 0.15 at 90% of
    the distance and 0 at collapse, and the collapsed-silhouette opacity is
    the inverse curve 0 / 0.85 / 1. -/
theorem shadow_opacity_curves_right (w : ℚ) (hw : 0 ≤ w) :
    expandedShadowOpacity (distance AnimateFrom.right w)
      (distance AnimateFrom.right w) = 1
    ∧ expandedShadowOpacity (distance AnimateFrom.right w)
      ((9 / 10) * distance AnimateFrom.right w) = 15 / 100
    ∧ expandedShadowOpacity (distance AnimateFrom.right w) 0 = 0
    ∧ collapsedShadowOpacity (distance AnimateFrom.right w)
      (distance AnimateFrom.right w) = 0
    ∧ collapsedShadowOpacity (distance AnimateFrom.right w)
      ((9 / 10) * distance AnimateFrom.right w) = 85 / 100
    ∧ collapsedShadowOpacity (distance AnimateFrom.right w) 0 = 1 := by
  have hbr : BORDER_RADIUS = 28 := by norm_num [BORDER_RADIUS, SIZE]
  have hd : distance AnimateFrom.right w = -w - 28 := by
    rw [distance_right_eq, hbr]
  have hdlt : distance AnimateFrom.right w < 0 := by rw [hd]; linarith
  have hne : distance AnimateFrom.right w
      ≠ (9 / 10) * distance AnimateFrom.right w := by
    intro hc; nlinarith
  have hne9 : (9 / 10) * distance AnimateFrom.right w ≠ 0 := by
    intro hc
    linarith
  have h9le : distance AnimateFrom.right w
      ≤ (9 / 10) * distance AnimateFrom.right w := by linarith
  have h9gt : ¬ (0 : ℚ) ≤ (9 / 10) * distance AnimateFrom.right w := by
    rw [not_le]
    linarith
  refine ⟨?_, ?_, ?_, ?_, ?_, ?_⟩
  · unfold expandedShadowOpacity
    rw [interpolate_triple_le _ _ _ _ _ _ _ h9le]
    exact interpolateSegment_start _ _ _ _ hne
  · unfold expandedShadowOpacity
    rw [interpolate_triple_le _ _ _ _ _ _ _ le_rfl]
    exact interpolateSegment_end _ _ _ _ hne
  · unfold expandedShadowOpacity
    rw [interpolate_triple_gt _ _ _ _ _ _ _ h9gt]
    exact interpolateSegment_end _ _ _ _ hne9
  · unfold collapsedShadowOpacity
    rw [interpolate_triple_le _ _ _ _ _ _ _ h9le]
    exact interpolateSegment_start _ _ _ _ hne
  · unfold collapsedShadowOpacity
    rw [interpolate_triple_le _ _ _ _ _ _ _ le_rfl]
    exact interpolateSegment_end _ _ _ _ hne
  · unfold collapsedShadowOpacity
    rw [interpolate_triple_gt _ _ _ _ _ _ _ h9gt]
    exact interpolateSegment_end _ _ _ _ hne9

/-- Witness for the amended C4 at width 10 (distance -38). -/
theorem shadow_opacity_curves_right_witness :
    expandedShadowOpacity (distance AnimateFrom.right 10)
      (distance AnimateFrom.right 10) = 1
    ∧ expandedShadowOpacity (distance AnimateFrom.right 10)
      ((9 / 10) * distance AnimateFrom.right 10) = 15 / 100
    ∧ expandedShadowOpacity (distance AnimateFrom.right 10) 0 = 0
    ∧ collapsedShadowOpacity (distance AnimateFrom.right 10)
      (distance AnimateFrom.right 10) = 0
    ∧ collapsedShadowOpacity (distance AnimateFrom.right 10)
      ((9 / 10) * distance AnimateFrom.right 10) = 85 / 100
    ∧ collapsedShadowOpacity (distance AnimateFrom.right 10) 0 = 1 :=
  shadow_opacity_curves_right 10 (by norm_num)

/-- C5: the contrast resolver's precedence — an override color wins; else a
    disabled FAB takes the theme ink at 32% opacity; else the ink with the
    higher contrast against the background (white, or the near-black
    fallback) is chosen; and the ripple is always the chosen foreground at
    32% opacity. -/
theorem resolveColors_precedence (custom : Option Color)
    (disabled isDark : Bool) (bg : Color) :
    (∀ c, custom = some c → foregroundColor custom disabled isDark bg = c)
    ∧ (custom = none → disabled = true →
      foregroundColor custom disabled isDark bg
        = withAlpha (if isDark then white else black) (32 / 100))
    ∧ (custom = none → disabled = false →
      (contrast darkFallback bg ≤ contrast white bg →
        foregroundColor custom disabled isDark bg = white)
      ∧ (contrast white bg < contrast darkFallback bg →
        foregroundColor custom disabled isDark bg = darkFallback))
    ∧ rippleColor (foregroundColor custom disabled isDark bg)
      = withAlpha (foregroundColor custom disabled isDark bg) (32 / 100) := by
  refine ⟨?_, ?_, ?_, rfl⟩
  · intro c hc
    subst hc
    rfl
  · intro hn hd
    subst hn
    subst hd
    rfl
  · intro hn hd
    subst hn
    subst hd
    constructor
    · intro h
      simp [foregroundColor, getContrastingColor, h]
    · intro h
      simp [foregroundColor, getContrastingColor, not_le.mpr h]

/-- Witness for C5: each precedence branch exercised at a concrete input —
    an override wins, disabled yields white ink at 32% on a dark theme, a
    black background picks white, a white background picks the near-black
    fallback, and the ripple is the foreground at 32%. -/
theorem resolveColors_precedence_witness :
    foregroundColor (some darkFallback) false false white = darkFallback
    ∧ foregroundColor none true true white = withAlpha white (32 / 100)
    ∧ foregroundColor none false true black = white
    ∧ foregroundColor none false true white = darkFallback
    ∧ rippleColor (foregroundColor none false true black)
      = withAlpha (foregroundColor none false true black) (32 / 100) := by
  refine ⟨(resolveColors_precedence (some darkFallback) false false white).1
      darkFallback rfl,
    (resolveColors_precedence none true true white).2.1 rfl rfl,
    ((resolveColors_precedence none false true black).2.2.1 rfl rfl).1 ?_,
    ((resolveColors_precedence none false true white).2.2.1 rfl rfl).2 ?_,
    (resolveColors_precedence none false true black).2.2.2⟩ <;>
    norm_num [contrast, luma, white, black, darkFallback]

end AnimatedFAB
